import Mathlib

/-!
# BerlinUhr time-keeping core: shallow embedding

Embedding of the time-keeping and synchronization subsystem of
`BerlinUhr.ino` (ESP8266 Berlin clock): civil-calendar decomposition
(`gmtime` over UTC epoch seconds), the EU DST rule (`isDstEurope`,
`lastSunday`), display-time conversion, the nightly resync scheduler
(`scheduleNextNightlySync`, `shouldStartNightlySync`), the internal RTC
(`getCurrentRtcTime`, `syncRtcFromSystemTime`), the WiFi supervisor
(`superviseWiFi`) and the main-loop state machine.

`time_t` is modelled as `Nat` (seconds since 1970-01-01 UTC);
`unsigned long` millisecond counters are `Nat` values reduced modulo
`2^32`, with wraparound-safe subtraction made explicit.
-/

namespace BerlinUhr

/-! ## Civil calendar (the `gmtime` decomposition used by the sketch) -/

/-- Gregorian leap-year rule. -/
def isLeap (y : Nat) : Bool :=
  (y % 4 == 0 && y % 100 != 0) || (y % 400 == 0)

/-- Number of days in year `y`. -/
def daysInYear (y : Nat) : Nat :=
  if isLeap y then 366 else 365

/-- Days from `y`-01-01 to `(y + n)`-01-01. -/
def yearsDaysFrom (y : Nat) : Nat → Nat
  | 0 => 0
  | n + 1 => yearsDaysFrom y n + daysInYear (y + n)

/-- Days from the epoch 1970-01-01 to `y`-01-01 (for `y ≥ 1970`). -/
def daysToYear (y : Nat) : Nat := yearsDaysFrom 1970 (y - 1970)

/-- Length of month `m` (1..12); `leap` selects February's length. -/
def monthLen (leap : Bool) (m : Nat) : Nat :=
  match m with
  | 1 => 31
  | 2 => if leap then 29 else 28
  | 3 => 31
  | 4 => 30
  | 5 => 31
  | 6 => 30
  | 7 => 31
  | 8 => 31
  | 9 => 30
  | 10 => 31
  | 11 => 30
  | 12 => 31
  | _ => 0

/-- Days of the year strictly before month `m` (1-based; `monthDays leap 13`
is the full year length). -/
def monthDays (leap : Bool) : Nat → Nat
  | 0 => 0
  | m + 1 => monthDays leap m + monthLen leap m

/-- Days of the year from the start of month `m` to the start of month
`m + n` (helper for reasoning about `splitMonthAux`). -/
def monthDaysFrom (leap : Bool) (m : Nat) : Nat → Nat
  | 0 => 0
  | n + 1 => monthDaysFrom leap m n + monthLen leap (m + n)

/-- Split a day count since the epoch into (year, day-of-year), scanning
years upward from `y`; `fuel` bounds the recursion (each step consumes at
least 365 days, so `fuel := z` always suffices). -/
def splitYearAux : Nat → Nat → Nat → Nat × Nat
  | 0, y, z => (y, z)
  | fuel + 1, y, z =>
    if z < daysInYear y then (y, z)
    else splitYearAux fuel (y + 1) (z - daysInYear y)

/-- (year, 0-based day-of-year) of day number `z` since 1970-01-01. -/
def splitYear (z : Nat) : Nat × Nat := splitYearAux z 1970 z

/-- Split a 0-based day-of-year into (month, 0-based day-of-month),
scanning months upward; called with `m = 1` and `fuel = 11`, so month 12
absorbs whatever remains, as `gmtime` does for a valid day-of-year. -/
def splitMonthAux (leap : Bool) : Nat → Nat → Nat → Nat × Nat
  | 0, m, doy => (m, doy)
  | fuel + 1, m, doy =>
    if doy < monthLen leap m then (m, doy)
    else splitMonthAux leap fuel (m + 1) (doy - monthLen leap m)

/-- (month 1..12, 0-based day-of-month) of a 0-based day-of-year. -/
def splitMonth (leap : Bool) (doy : Nat) : Nat × Nat :=
  splitMonthAux leap 11 1 doy

/-- `tm_year + 1900` of `gmtime(u)`. -/
def civilYear (u : Nat) : Nat := (splitYear (u / 86400)).1

/-- 0-based day-of-year of `gmtime(u)`. -/
def civilDoy (u : Nat) : Nat := (splitYear (u / 86400)).2

/-- `tm_mon + 1` of `gmtime(u)` (1..12). -/
def civilMonth (u : Nat) : Nat :=
  (splitMonth (isLeap (civilYear u)) (civilDoy u)).1

/-- `tm_mday` of `gmtime(u)` (1..31). -/
def civilDay (u : Nat) : Nat :=
  (splitMonth (isLeap (civilYear u)) (civilDoy u)).2 + 1

/-- `tm_hour` of `gmtime(u)`. -/
def civilHour (u : Nat) : Nat := u % 86400 / 3600

/-- `tm_min` of `gmtime(u)`. -/
def civilMin (u : Nat) : Nat := u % 3600 / 60

/-- `tm_sec` of `gmtime(u)`. -/
def civilSec (u : Nat) : Nat := u % 60

/-- Day number since the epoch of civil date (y, m, d) with `y ≥ 1970`. -/
def dateToDays (y m d : Nat) : Nat :=
  daysToYear y + monthDays (isLeap y) m + (d - 1)

/-! ## Calendar math from the sketch -/

/-- `lastSunday(year, month)`: day-of-month of the last Sunday.  The sketch
builds a `struct tm` for the 31st at 12:00 and lets `mktime` fill in
`tm_wday` (0 = Sunday); 1970-01-01 (epoch day 0) was a Thursday, so the
weekday of epoch day `z` is `(z + 4) % 7`.  Only called with 31-day
months (March, October). -/
def lastSunday (year month : Nat) : Nat :=
  31 - (dateToDays year month 31 + 4) % 7

/-- `isDstEurope(utc)`: the sketch's EU DST predicate, decomposing `utc`
via `gmtime` and casing on month / day-versus-last-Sunday / hour. -/
def isDstEurope (utc : Nat) : Bool :=
  let year := civilYear utc
  let month := civilMonth utc
  let day := civilDay utc
  let hour := civilHour utc
  if month < 3 ∨ month > 10 then
    false
  else if month > 3 ∧ month < 10 then
    true
  else if month = 3 then
    let ls := lastSunday year 3
    if day > ls then true
    else if day < ls then false
    else decide (hour ≥ 1)
  else
    -- month == 10
    let ls := lastSunday year 10
    if day < ls then true
    else if day > ls then false
    else decide (hour < 1)

/-- `getUtcOffsetSeconds(utc)`: 7200 in summer, 3600 in winter. -/
def getUtcOffsetSeconds (utc : Nat) : Nat :=
  if isDstEurope utc then 7200 else 3600

/-- `getDisplayTime(utc) = utc + getUtcOffsetSeconds(utc)`. -/
def getDisplayTime (utc : Nat) : Nat :=
  utc + getUtcOffsetSeconds utc

/-! ## Specification-side DST interval (for the refinement claim) -/

/-- Modelled from the spec's words: the UTC instant 01:00:00 on the last
Sunday of March of year `y` — the start of the EU DST interval. -/
def dstStart (y : Nat) : Nat :=
  dateToDays y 3 (lastSunday y 3) * 86400 + 3600

/-- Modelled from the spec's words: the UTC instant 01:00:00 on the last
Sunday of October of year `y` — the (exclusive) end of the EU DST
interval. -/
def dstEnd (y : Nat) : Nat :=
  dateToDays y 10 (lastSunday y 10) * 86400 + 3600

/-- Modelled from the spec's words: `u` lies in the half-open interval
from 01:00 UTC on the last Sunday of March (inclusive) to 01:00 UTC on
the last Sunday of October (exclusive) of `u`'s year. -/
def isDstSpec (u : Nat) : Prop :=
  dstStart (civilYear u) ≤ u ∧ u < dstEnd (civilYear u)

instance (u : Nat) : Decidable (isDstSpec u) := by
  unfold isDstSpec
  infer_instance

/-! ## Resync scheduler -/

/-- Configured nightly resync time-of-day (local display time): 03:05. -/
def ntpSyncHour : Nat := 3

/-- Configured nightly resync minute. -/
def ntpSyncMinute : Nat := 5

/-- The loop body's test: does candidate `c`'s display time read
`ntpSyncHour:ntpSyncMinute:00`? -/
def syncMatch (c : Nat) : Bool :=
  let d := getDisplayTime c
  civilHour d == ntpSyncHour && civilMin d == ntpSyncMinute && civilSec d == 0

/-- The scan loop of `scheduleNextNightlySync`: starting at candidate `c`
and stepping by 60 seconds for at most `fuel` iterations, return the first
matching candidate. -/
def scanSyncAux : Nat → Nat → Option Nat
  | _, 0 => none
  | c, fuel + 1 => if syncMatch c then some c else scanSyncAux (c + 60) fuel

/-- `scheduleNextNightlySync(currentUtc)` as the value stored into
`nextNtpSyncEpoch`: scan up to 48*60 minutes from the next full minute;
fall back to 24 h later if the scan fails. -/
def scheduleNext (currentUtc : Nat) : Nat :=
  let startUtc := currentUtc - currentUtc % 60 + 60
  match scanSyncAux startUtc (48 * 60) with
  | some c => c
  | none => currentUtc + 24 * 3600

/-! ## Global state and the stateful operations -/

/-- `ClockState_t`: the session phases of the sketch's state machine. -/
inductive ClockStateT where
  | STATE_WIFI_CONFIG
  | STATE_WAIT_FOR_TIME
  | STATE_SHOW_CLOCK
deriving DecidableEq, Repr

/-- NTP wait bound during a sync attempt (`ntpWaitTimeoutMs`). -/
def ntpWaitTimeoutMs : Nat := 20000

/-- WiFi absence bound (`wifiLostTimeoutMs`). -/
def wifiLostTimeoutMs : Nat := 60000

/-- NTP sanity floor: readings before 2016-01-01 UTC are invalid. -/
def ntpSanityFloor : Nat := 1451606400

/-- `unsigned long` (32-bit) wraparound subtraction `a - b`. -/
def usub32 (a b : Nat) : Nat :=
  (a % 4294967296 + (4294967296 - b % 4294967296)) % 4294967296

/-- The sketch's global mutable variables relevant to time-keeping.
(Brightness/LDR globals and the LED strip are omitted: no claim touches
them and they are written only by the rendering side.) -/
structure Globals where
  myState : ClockStateT
  rtcBaseTime : Nat
  rtcBaseMillis : Nat
  nextNtpSyncEpoch : Nat
  ntpSyncInProgress : Bool
  ntpSyncStartMs : Nat
  wifiLostSinceMs : Nat
  lastRenderMillis : Nat
  t_sec : Nat
  t_min : Nat
  t_hour : Nat
deriving DecidableEq, Repr

/-- The sketch's globals as initialized at boot (`setup()` leaves the
static initializers in place and sets `myState = STATE_WIFI_CONFIG`). -/
def initGlobals : Globals :=
  { myState := ClockStateT.STATE_WIFI_CONFIG
    rtcBaseTime := 0
    rtcBaseMillis := 0
    nextNtpSyncEpoch := 0
    ntpSyncInProgress := false
    ntpSyncStartMs := 0
    wifiLostSinceMs := 0
    lastRenderMillis := 0
    t_sec := 0
    t_min := 0
    t_hour := 0 }

/-- `scheduleNextNightlySync(currentUtc)` as the state update it performs:
store the scanned instant into `nextNtpSyncEpoch`. -/
def scheduleNextNightlySync (g : Globals) (currentUtc : Nat) : Globals :=
  { g with nextNtpSyncEpoch := scheduleNext currentUtc }

/-- `isTimeValid()`: the polled reading is valid iff at or after the
sanity floor. -/
def isTimeValid (now : Nat) : Bool :=
  !(now < ntpSanityFloor)

/-- `getCurrentRtcTime()`: if no reference was ever absorbed
(`rtcBaseTime == 0`), return the platform time `time(nullptr)` directly;
otherwise reference UTC plus wraparound-safe elapsed milliseconds / 1000.
`nowMillis` is the `millis()` value at the call, `sysTime` the
`time(nullptr)` value. -/
def getCurrentRtcTime (g : Globals) (nowMillis sysTime : Nat) : Nat :=
  if g.rtcBaseTime == 0 then
    sysTime
  else
    let elapsedMs := usub32 nowMillis g.rtcBaseMillis
    g.rtcBaseTime + elapsedMs / 1000

/-- `syncRtcFromSystemTime()`: reject readings below the sanity floor
without mutating anything; on acceptance replace the clock reference and
recompute the schedule.  `now` is the `time(nullptr)` reading, `tick` the
`millis()` value at the call. -/
def syncRtcFromSystemTime (g : Globals) (now tick : Nat) : Bool × Globals :=
  if now < ntpSanityFloor then
    (false, g)
  else
    (true, scheduleNextNightlySync
      { g with rtcBaseTime := now, rtcBaseMillis := tick } now)

/-- `updateTimeFromRtc()`: extract display h/m/s into `t_hour`/`t_min`/
`t_sec`. -/
def updateTimeFromRtc (g : Globals) (nowMillis sysTime : Nat) : Globals :=
  let nowUtc := getCurrentRtcTime g nowMillis sysTime
  let nowDisp := getDisplayTime nowUtc
  { g with
      t_sec := civilSec nowDisp
      t_min := civilMin nowDisp
      t_hour := civilHour nowDisp }

/-- `shouldStartNightlySync(currentUtc)`: returns whether a nightly sync
is due and the updated globals (the schedule is recomputed immediately on
reporting due, and computed fresh when it was unset). -/
def shouldStartNightlySync (g : Globals) (currentUtc : Nat) : Bool × Globals :=
  if g.nextNtpSyncEpoch == 0 then
    (false, scheduleNextNightlySync g currentUtc)
  else if currentUtc < g.nextNtpSyncEpoch then
    (false, g)
  else
    (true, scheduleNextNightlySync g currentUtc)

/-- `superviseWiFi(nowMs)`: track how long WiFi has been absent
(`wifiLostSinceMs`, with 0 meaning "not absent"), and force the state
machine back to `STATE_WIFI_CONFIG` when the absence exceeds the bound.
`connected` is `WiFi.status() == WL_CONNECTED`. -/
def superviseWiFi (g : Globals) (nowMs : Nat) (connected : Bool) : Globals :=
  if !connected then
    let g1 := if g.wifiLostSinceMs == 0 then { g with wifiLostSinceMs := nowMs } else g
    if usub32 nowMs g1.wifiLostSinceMs > wifiLostTimeoutMs then
      { g1 with wifiLostSinceMs := 0, myState := ClockStateT.STATE_WIFI_CONFIG }
    else
      g1
  else
    { g with wifiLostSinceMs := 0 }

/-- External inputs consumed by one iteration of `loop()`; one field per
call site of `millis()` / `time(nullptr)` / `WiFi.status()`. -/
structure LoopEnv where
  nowMs : Nat      -- millis() at the top of loop
  waitMs : Nat     -- millis() in the NTP-timeout check
  reading1 : Nat   -- time(nullptr) inside isTimeValid()
  reading2 : Nat   -- time(nullptr) inside syncRtcFromSystemTime()
  syncMs : Nat     -- millis() inside syncRtcFromSystemTime()
  startMs : Nat    -- millis() stored into ntpSyncStartMs on entering WAIT
  rtcMs1 : Nat     -- millis() in getCurrentRtcTime() during rendering
  rtcMs2 : Nat     -- millis() in getCurrentRtcTime() for the sync check
  sysTime : Nat    -- time(nullptr) fallback of getCurrentRtcTime()
  connected : Bool -- WiFi.status() == WL_CONNECTED
deriving Repr

/-- One iteration of `loop()`'s state machine `switch` (the rendering and
brightness side effects are external writes and drop out). -/
def loopStep (g : Globals) (e : LoopEnv) : Globals :=
  match g.myState with
  | ClockStateT.STATE_WIFI_CONFIG =>
    -- setupWifi(); startNtp(); then arm the sync attempt and wait
    { g with
        ntpSyncInProgress := true
        ntpSyncStartMs := e.startMs
        myState := ClockStateT.STATE_WAIT_FOR_TIME }
  | ClockStateT.STATE_WAIT_FOR_TIME =>
    if g.ntpSyncInProgress && decide (usub32 e.waitMs g.ntpSyncStartMs > ntpWaitTimeoutMs) then
      { g with ntpSyncInProgress := false, myState := ClockStateT.STATE_WIFI_CONFIG }
    else if isTimeValid e.reading1 then
      match syncRtcFromSystemTime g e.reading2 e.syncMs with
      | (false, g1) =>
        { g1 with ntpSyncInProgress := false, myState := ClockStateT.STATE_WIFI_CONFIG }
      | (true, g1) =>
        let g2 := { g1 with
                      ntpSyncInProgress := false
                      myState := ClockStateT.STATE_SHOW_CLOCK }
        superviseWiFi g2 e.nowMs e.connected
    else
      superviseWiFi g e.nowMs e.connected
  | ClockStateT.STATE_SHOW_CLOCK =>
    let g1 :=
      if usub32 e.nowMs g.lastRenderMillis ≥ 20 then
        updateTimeFromRtc { g with lastRenderMillis := e.nowMs } e.rtcMs1 e.sysTime
      else
        g
    let currentUtc := getCurrentRtcTime g1 e.rtcMs2 e.sysTime
    let (due, g2) := shouldStartNightlySync g1 currentUtc
    let g3 :=
      if due then
        { g2 with
            ntpSyncInProgress := true
            ntpSyncStartMs := e.startMs
            myState := ClockStateT.STATE_WAIT_FOR_TIME }
      else
        g2
    superviseWiFi g3 e.nowMs e.connected

/-! ## Calendar lemmas -/

theorem daysInYear_ge (y : Nat) : 365 ≤ daysInYear y := by
  unfold daysInYear
  split <;> omega

theorem daysInYear_le (y : Nat) : daysInYear y ≤ 366 := by
  unfold daysInYear
  split <;> omega

theorem yearsDaysFrom_succ_left (y n : Nat) :
    yearsDaysFrom y (n + 1) = daysInYear y + yearsDaysFrom (y + 1) n := by
  induction n with
  | zero => simp [yearsDaysFrom, Nat.add_comm]
  | succ n ih =>
    have h1 : yearsDaysFrom y (n + 1 + 1)
        = yearsDaysFrom y (n + 1) + daysInYear (y + (n + 1)) := rfl
    have h2 : yearsDaysFrom (y + 1) (n + 1)
        = yearsDaysFrom (y + 1) n + daysInYear (y + 1 + n) := rfl
    rw [h1, ih, h2]
    have h3 : y + (n + 1) = y + 1 + n := by omega
    rw [h3]
    omega

theorem yearsDaysFrom_ge (y n : Nat) : 365 * n ≤ yearsDaysFrom y n := by
  induction n with
  | zero => simp [yearsDaysFrom]
  | succ n ih =>
    have h1 : yearsDaysFrom y (n + 1)
        = yearsDaysFrom y n + daysInYear (y + n) := rfl
    have h2 := daysInYear_ge (y + n)
    omega

theorem splitYearAux_spec :
    ∀ (fuel y z : Nat), z ≤ 365 * fuel →
      y ≤ (splitYearAux fuel y z).1
      ∧ (splitYearAux fuel y z).2 < daysInYear (splitYearAux fuel y z).1
      ∧ yearsDaysFrom y ((splitYearAux fuel y z).1 - y) + (splitYearAux fuel y z).2 = z := by
  intro fuel
  induction fuel with
  | zero =>
    intro y z hz
    have hz0 : z = 0 := by omega
    subst hz0
    have h := daysInYear_ge y
    simp [splitYearAux, yearsDaysFrom]
    omega
  | succ fuel ih =>
    intro y z hz
    by_cases h : z < daysInYear y
    · simp only [splitYearAux, if_pos h]
      simp [yearsDaysFrom]
      omega
    · simp only [splitYearAux, if_neg h]
      have hge := daysInYear_ge y
      have hz' : z - daysInYear y ≤ 365 * fuel := by omega
      obtain ⟨h1, h2, h3⟩ := ih (y + 1) (z - daysInYear y) hz'
      refine ⟨by omega, h2, ?_⟩
      set p := splitYearAux fuel (y + 1) (z - daysInYear y) with hp
      have hyp : p.1 - y = (p.1 - (y + 1)) + 1 := by omega
      rw [hyp, yearsDaysFrom_succ_left]
      omega

theorem splitYearAux_inv :
    ∀ (n fuel y doy : Nat), n ≤ fuel → doy < daysInYear (y + n) →
      splitYearAux fuel y (yearsDaysFrom y n + doy) = (y + n, doy) := by
  intro n
  induction n with
  | zero =>
    intro fuel y doy _ hdoy
    simp only [Nat.add_zero] at hdoy
    simp only [yearsDaysFrom, Nat.zero_add]
    match fuel with
    | 0 => rfl
    | fuel + 1 =>
      simp only [splitYearAux]
      rw [if_pos hdoy, Nat.add_zero]
  | succ n ih =>
    intro fuel y doy hfuel hdoy
    match fuel with
    | fuel + 1 =>
      rw [yearsDaysFrom_succ_left]
      have hge := daysInYear_ge y
      have hnlt : ¬ (daysInYear y + yearsDaysFrom (y + 1) n + doy < daysInYear y) := by
        omega
      simp only [splitYearAux]
      rw [if_neg hnlt]
      have hsub : daysInYear y + yearsDaysFrom (y + 1) n + doy - daysInYear y
          = yearsDaysFrom (y + 1) n + doy := by omega
      rw [hsub]
      have hdoy' : doy < daysInYear (y + 1 + n) := by
        have heq : y + 1 + n = y + (n + 1) := by omega
        rw [heq]
        exact hdoy
      rw [ih fuel (y + 1) doy (by omega) hdoy']
      have heq : y + 1 + n = y + (n + 1) := by omega
      rw [heq]

theorem monthDays_succ (leap : Bool) (m : Nat) :
    monthDays leap (m + 1) = monthDays leap m + monthLen leap m := rfl

theorem monthDays_13 (y : Nat) : monthDays (isLeap y) 13 = daysInYear y := by
  cases h : isLeap y <;> simp [daysInYear, h] <;> rfl

theorem monthDays_le_13 (leap : Bool) (m : Nat) (h : m ≤ 13) :
    monthDays leap m ≤ monthDays leap 13 := by
  interval_cases m <;> cases leap <;> decide

theorem monthDaysFrom_succ_left (leap : Bool) (m n : Nat) :
    monthDaysFrom leap m (n + 1) = monthLen leap m + monthDaysFrom leap (m + 1) n := by
  induction n with
  | zero => simp [monthDaysFrom, Nat.add_comm]
  | succ n ih =>
    have h1 : monthDaysFrom leap m (n + 1 + 1)
        = monthDaysFrom leap m (n + 1) + monthLen leap (m + (n + 1)) := rfl
    have h2 : monthDaysFrom leap (m + 1) (n + 1)
        = monthDaysFrom leap (m + 1) n + monthLen leap (m + 1 + n) := rfl
    rw [h1, ih, h2]
    have h3 : m + (n + 1) = m + 1 + n := by omega
    rw [h3]
    omega

theorem monthDays_add_from (leap : Bool) (m n : Nat) :
    monthDays leap (m + n) = monthDays leap m + monthDaysFrom leap m n := by
  induction n with
  | zero => simp [monthDaysFrom]
  | succ n ih =>
    have h1 : m + (n + 1) = (m + n) + 1 := by omega
    rw [h1, monthDays_succ, ih]
    have h2 : monthDaysFrom leap m (n + 1)
        = monthDaysFrom leap m n + monthLen leap (m + n) := rfl
    rw [h2]
    omega

theorem splitMonthAux_spec :
    ∀ (fuel : Nat) (leap : Bool) (m doy : Nat), m + fuel = 12 →
      monthDays leap m + doy < monthDays leap 13 →
      m ≤ (splitMonthAux leap fuel m doy).1
      ∧ (splitMonthAux leap fuel m doy).1 ≤ 12
      ∧ (splitMonthAux leap fuel m doy).2 < monthLen leap (splitMonthAux leap fuel m doy).1
      ∧ monthDays leap (splitMonthAux leap fuel m doy).1 + (splitMonthAux leap fuel m doy).2
          = monthDays leap m + doy := by
  intro fuel
  induction fuel with
  | zero =>
    intro leap m doy hm hbound
    have hm12 : m = 12 := by omega
    subst hm12
    have h13 : monthDays leap 13 = monthDays leap 12 + monthLen leap 12 := rfl
    simp [splitMonthAux]
    omega
  | succ fuel ih =>
    intro leap m doy hm hbound
    by_cases h : doy < monthLen leap m
    · simp only [splitMonthAux]
      rw [if_pos h]
      simp
      omega
    · simp only [splitMonthAux]
      rw [if_neg h]
      have hrec : monthDays leap (m + 1) + (doy - monthLen leap m)
          = monthDays leap m + doy := by
        rw [monthDays_succ]
        omega
      obtain ⟨h1, h2, h3, h4⟩ := ih leap (m + 1) (doy - monthLen leap m) (by omega) (by omega)
      exact ⟨by omega, h2, h3, by omega⟩

theorem splitMonthAux_inv :
    ∀ (n : Nat) (leap : Bool) (fuel m doy : Nat), n ≤ fuel →
      doy < monthLen leap (m + n) →
      splitMonthAux leap fuel m (monthDaysFrom leap m n + doy) = (m + n, doy) := by
  intro n
  induction n with
  | zero =>
    intro leap fuel m doy _ hdoy
    simp only [Nat.add_zero] at hdoy
    simp only [monthDaysFrom, Nat.zero_add]
    match fuel with
    | 0 => rfl
    | fuel + 1 =>
      simp only [splitMonthAux]
      rw [if_pos hdoy, Nat.add_zero]
  | succ n ih =>
    intro leap fuel m doy hfuel hdoy
    match fuel with
    | fuel + 1 =>
      rw [monthDaysFrom_succ_left]
      have hnlt : ¬ (monthLen leap m + monthDaysFrom leap (m + 1) n + doy < monthLen leap m) := by
        omega
      simp only [splitMonthAux]
      rw [if_neg hnlt]
      have hsub : monthLen leap m + monthDaysFrom leap (m + 1) n + doy - monthLen leap m
          = monthDaysFrom leap (m + 1) n + doy := by omega
      rw [hsub]
      have hdoy' : doy < monthLen leap (m + 1 + n) := by
        have heq : m + 1 + n = m + (n + 1) := by omega
        rw [heq]
        exact hdoy
      rw [ih leap fuel (m + 1) doy (by omega) hdoy']
      have heq : m + 1 + n = m + (n + 1) := by omega
      rw [heq]

theorem lastSunday_bounds (y m : Nat) :
    25 ≤ lastSunday y m ∧ lastSunday y m ≤ 31 := by
  unfold lastSunday
  have h := Nat.mod_lt (dateToDays y m 31 + 4) (show 0 < 7 by omega)
  omega

/-- Every UTC instant decomposes into the civil fields that `gmtime`
produces, with the epoch value recoverable from the fields. -/
theorem civil_decomp (u : Nat) :
    ∃ y m dom sod,
      1970 ≤ y ∧ 1 ≤ m ∧ m ≤ 12
      ∧ dom < monthLen (isLeap y) m ∧ sod < 86400
      ∧ u = (daysToYear y + monthDays (isLeap y) m + dom) * 86400 + sod
      ∧ civilYear u = y ∧ civilMonth u = m ∧ civilDay u = dom + 1
      ∧ civilHour u = sod / 3600 := by
  obtain ⟨hy1, hy2, hy3⟩ := splitYearAux_spec (u / 86400) 1970 (u / 86400) (by omega)
  have hyq : daysToYear (civilYear u) + civilDoy u = u / 86400 := hy3
  have hdoy : civilDoy u < daysInYear (civilYear u) := hy2
  have h13 := monthDays_13 (civilYear u)
  have h1 : monthDays (isLeap (civilYear u)) 1 = 0 := rfl
  obtain ⟨hm1, hm2, hm3, hm4⟩ :=
    splitMonthAux_spec 11 (isLeap (civilYear u)) 1 (civilDoy u) (by omega) (by omega)
  refine ⟨civilYear u, civilMonth u,
    (splitMonth (isLeap (civilYear u)) (civilDoy u)).2, u % 86400,
    hy1, hm1, hm2, hm3, by omega, ?_, rfl, rfl, rfl, rfl⟩
  have hmq : monthDays (isLeap (civilYear u)) (civilMonth u)
      + (splitMonth (isLeap (civilYear u)) (civilDoy u)).2
      = monthDays (isLeap (civilYear u)) 1 + civilDoy u := hm4
  have hu : u = (u / 86400) * 86400 + u % 86400 := by omega
  omega

/-- Building an instant from civil fields recovers those fields. -/
theorem civil_build (y m dom sod : Nat) (hy : 1970 ≤ y) (hm1 : 1 ≤ m) (hm2 : m ≤ 12)
    (hdom : dom < monthLen (isLeap y) m) (hsod : sod < 86400) :
    civilYear ((daysToYear y + monthDays (isLeap y) m + dom) * 86400 + sod) = y
    ∧ civilMonth ((daysToYear y + monthDays (isLeap y) m + dom) * 86400 + sod) = m
    ∧ civilDay ((daysToYear y + monthDays (isLeap y) m + dom) * 86400 + sod) = dom + 1
    ∧ civilHour ((daysToYear y + monthDays (isLeap y) m + dom) * 86400 + sod)
        = sod / 3600 := by
  set leap := isLeap y with hleap
  set D := daysToYear y + monthDays leap m + dom with hD
  set u := D * 86400 + sod with hu
  have hdiv : u / 86400 = D := by omega
  have hmod : u % 86400 = sod := by omega
  have hdoy' : monthDays leap m + dom < daysInYear y := by
    have hsucc := monthDays_succ leap m
    have hle := monthDays_le_13 leap (m + 1) (by omega)
    have h13 : monthDays leap 13 = daysInYear y := by
      rw [hleap]
      exact monthDays_13 y
    omega
  have hn : y - 1970 ≤ D := by
    have hge := yearsDaysFrom_ge 1970 (y - 1970)
    have : daysToYear y = yearsDaysFrom 1970 (y - 1970) := rfl
    omega
  have hyinv : splitYearAux D 1970 D = (y, monthDays leap m + dom) := by
    have heq : D = yearsDaysFrom 1970 (y - 1970) + (monthDays leap m + dom) := by
      have : daysToYear y = yearsDaysFrom 1970 (y - 1970) := rfl
      omega
    rw [heq]
    have hdoy2 : monthDays leap m + dom < daysInYear (1970 + (y - 1970)) := by
      have h1970 : 1970 + (y - 1970) = y := by omega
      rw [h1970]
      exact hdoy'
    have := splitYearAux_inv (y - 1970) D 1970 (monthDays leap m + dom) hn hdoy2
    rw [heq] at this
    rw [this]
    have h1970 : 1970 + (y - 1970) = y := by omega
    rw [h1970]
  have hcy : civilYear u = y := by
    show (splitYear (u / 86400)).1 = y
    rw [hdiv]
    show (splitYearAux D 1970 D).1 = y
    rw [hyinv]
  have hcdoy : civilDoy u = monthDays leap m + dom := by
    show (splitYear (u / 86400)).2 = monthDays leap m + dom
    rw [hdiv]
    show (splitYearAux D 1970 D).2 = monthDays leap m + dom
    rw [hyinv]
  have hminv : splitMonthAux leap 11 1 (monthDays leap m + dom) = (m, dom) := by
    have hbridge : monthDays leap m = monthDaysFrom leap 1 (m - 1) := by
      have h1m : 1 + (m - 1) = m := by omega
      have := monthDays_add_from leap 1 (m - 1)
      rw [h1m] at this
      have h01 : monthDays leap 1 = 0 := rfl
      omega
    rw [hbridge]
    have hdom' : dom < monthLen leap (1 + (m - 1)) := by
      have h1m : 1 + (m - 1) = m := by omega
      rw [h1m]
      exact hdom
    have := splitMonthAux_inv (m - 1) leap 11 1 dom (by omega) hdom'
    rw [this]
    have h1m : 1 + (m - 1) = m := by omega
    rw [h1m]
  have hcm : civilMonth u = m := by
    show (splitMonth (isLeap (civilYear u)) (civilDoy u)).1 = m
    rw [hcy, hcdoy, ← hleap]
    show (splitMonthAux leap 11 1 (monthDays leap m + dom)).1 = m
    rw [hminv]
  have hcd : civilDay u = dom + 1 := by
    show (splitMonth (isLeap (civilYear u)) (civilDoy u)).2 + 1 = dom + 1
    rw [hcy, hcdoy, ← hleap]
    show (splitMonthAux leap 11 1 (monthDays leap m + dom)).2 + 1 = dom + 1
    rw [hminv]
  have hch : civilHour u = sod / 3600 := by
    show u % 86400 / 3600 = sod / 3600
    rw [hmod]
  exact ⟨hcy, hcm, hcd, hch⟩

theorem monthDays_mono (leap : Bool) {a b : Nat} (h : a ≤ b) :
    monthDays leap a ≤ monthDays leap b := by
  have hadd := monthDays_add_from leap a (b - a)
  have hab : a + (b - a) = b := by omega
  rw [hab] at hadd
  omega

/-- The sketch's DST predicate agrees with the half-open interval from
01:00 UTC on the last Sunday of March to 01:00 UTC on the last Sunday of
October, for every UTC instant. -/
theorem isDst_iff_interval (u : Nat) : isDstEurope u = true ↔ isDstSpec u := by
  obtain ⟨y, m, dom, sod, hy, hm1, hm2, hdom, hsod, hu, hcy, hcm, hcd, hch⟩ := civil_decomp u
  obtain ⟨hls3a, hls3b⟩ := lastSunday_bounds y 3
  obtain ⟨hls10a, hls10b⟩ := lastSunday_bounds y 10
  have hstart : dstStart y
      = (daysToYear y + monthDays (isLeap y) 3 + (lastSunday y 3 - 1)) * 86400 + 3600 := rfl
  have hend : dstEnd y
      = (daysToYear y + monthDays (isLeap y) 10 + (lastSunday y 10 - 1)) * 86400 + 3600 := rfl
  have hsuccm : monthDays (isLeap y) (m + 1)
      = monthDays (isLeap y) m + monthLen (isLeap y) m := monthDays_succ _ m
  have hlen3 : monthLen (isLeap y) 3 = 31 := by cases isLeap y <;> rfl
  have hlen10 : monthLen (isLeap y) 10 = 31 := by cases isLeap y <;> rfl
  have h34 : monthDays (isLeap y) 4 = monthDays (isLeap y) 3 + 31 := by
    cases isLeap y <;> rfl
  have h1011 : monthDays (isLeap y) 11 = monthDays (isLeap y) 10 + 31 := by
    cases isLeap y <;> rfl
  have h410 : monthDays (isLeap y) 4 ≤ monthDays (isLeap y) 10 :=
    monthDays_mono _ (by omega)
  have hmono3 : m + 1 ≤ 3 → monthDays (isLeap y) (m + 1) ≤ monthDays (isLeap y) 3 :=
    fun h => monthDays_mono _ h
  have hmono4 : 4 ≤ m → monthDays (isLeap y) 4 ≤ monthDays (isLeap y) m :=
    fun h => monthDays_mono _ h
  have hmono10 : m + 1 ≤ 10 → monthDays (isLeap y) (m + 1) ≤ monthDays (isLeap y) 10 :=
    fun h => monthDays_mono _ h
  have hmono11 : 11 ≤ m → monthDays (isLeap y) 11 ≤ monthDays (isLeap y) m :=
    fun h => monthDays_mono _ h
  have hme3 : m = 3 → monthDays (isLeap y) m = monthDays (isLeap y) 3 :=
    fun h => by rw [h]
  have hme10 : m = 10 → monthDays (isLeap y) m = monthDays (isLeap y) 10 :=
    fun h => by rw [h]
  have hml3 : m = 3 → monthLen (isLeap y) m = 31 :=
    fun h => by rw [h]; exact hlen3
  have hml10 : m = 10 → monthLen (isLeap y) m = 31 :=
    fun h => by rw [h]; exact hlen10
  have hbf : (false = true) = False := by simp
  have hbt : (true = true) = True := by simp
  unfold isDstSpec
  rw [hcy, hstart, hend]
  simp only [isDstEurope, hcy, hcm, hcd, hch]
  split_ifs <;>
    simp only [hbf, hbt, false_iff, true_iff, decide_eq_true_eq] <;>
    omega

/-! ## Scheduler lemmas -/

theorem scanSyncAux_spec :
    ∀ (fuel c : Nat),
      ((∀ i, i < fuel → syncMatch (c + 60 * i) = false) ∧ scanSyncAux c fuel = none)
      ∨ (∃ i, i < fuel ∧ syncMatch (c + 60 * i) = true
          ∧ scanSyncAux c fuel = some (c + 60 * i)
          ∧ ∀ j, j < i → syncMatch (c + 60 * j) = false) := by
  intro fuel
  induction fuel with
  | zero =>
    intro c
    exact Or.inl ⟨fun i hi => absurd hi (Nat.not_lt_zero i), rfl⟩
  | succ fuel ih =>
    intro c
    by_cases h : syncMatch c = true
    · refine Or.inr ⟨0, by omega, by simpa using h, ?_, fun j hj => absurd hj (Nat.not_lt_zero j)⟩
      simp [scanSyncAux, h]
    · have hf : syncMatch c = false := by
        revert h
        cases syncMatch c <;> simp
      rcases ih (c + 60) with ⟨hall, hnone⟩ | ⟨i, hi, hm, heq, hmin⟩
      · refine Or.inl ⟨?_, ?_⟩
        · intro i hi
          match i with
          | 0 => simpa using hf
          | j + 1 =>
            rw [show c + 60 * (j + 1) = c + 60 + 60 * j from by ring]
            exact hall j (by omega)
        · simp only [scanSyncAux, hf]
          simpa using hnone
      · refine Or.inr ⟨i + 1, by omega, ?_, ?_, ?_⟩
        · rw [show c + 60 * (i + 1) = c + 60 + 60 * i from by ring]
          exact hm
        · simp only [scanSyncAux, hf]
          rw [show c + 60 * (i + 1) = c + 60 + 60 * i from by ring]
          simpa using heq
        · intro j hj
          match j with
          | 0 => simpa using hf
          | j + 1 =>
            rw [show c + 60 * (j + 1) = c + 60 + 60 * j from by ring]
            exact hmin j (by omega)

theorem scheduleNext_gt (u : Nat) : u < scheduleNext u := by
  have hs : u < u - u % 60 + 60 := by
    have h1 := Nat.mod_le u 60
    have h2 := Nat.mod_lt u (show 0 < 60 by omega)
    omega
  unfold scheduleNext
  rcases scanSyncAux_spec (48 * 60) (u - u % 60 + 60) with ⟨_, hnone⟩ | ⟨i, _, _, heq, _⟩
  · simp only [hnone]
    omega
  · simp only [heq]
    omega

set_option maxRecDepth 1000000 in
set_option maxHeartbeats 4000000 in
/-- C1 (counterexample): with the resync configured for 03:05 local and
current UTC 2024-10-27T00:30:00 (epoch 1729989000), the scheduler does
NOT store 2024-10-27T01:05:00 UTC (epoch 1729991100). -/
theorem C1_scheduleNext_clock_change_counterexample :
    (scheduleNextNightlySync initGlobals 1729989000).nextNtpSyncEpoch ≠ 1729991100 := by
  decide

set_option maxRecDepth 1000000 in
set_option maxHeartbeats 4000000 in
/-- C1 (amended): with the resync configured for 03:05 local and current
UTC 2024-10-27T00:30:00 (epoch 1729989000), the scheduler stores
2024-10-27T02:05:00 UTC (epoch 1729994700): DST has already ended at
01:05 UTC (the end boundary 01:00 UTC is exclusive), so local 03:05 CET
is 02:05 UTC. -/
theorem C1_scheduleNext_clock_change :
    (scheduleNextNightlySync initGlobals 1729989000).nextNtpSyncEpoch = 1729994700 := by
  decide

set_option maxRecDepth 1000000 in
set_option maxHeartbeats 8000000 in
/-- C3 (counterexample): 1970-01-01T02:05:00 UTC (epoch 7500) is itself a
whole-minute boundary whose display time is exactly 03:05:00, yet the
scheduler does not store it: it stores the next day's occurrence
(epoch 93900 = 7500 + 86400). -/
theorem C3_first_match_counterexample :
    7500 % 60 = 0 ∧ syncMatch 7500 = true
    ∧ (scheduleNextNightlySync initGlobals 7500).nextNtpSyncEpoch = 93900 := by
  decide

/-- C3 (amended): the scheduler stores the first candidate, scanned
minute-by-minute over 48 hours starting at the first whole-minute
boundary STRICTLY AFTER `fromUtc`, whose display time reads
`ntpSyncHour:ntpSyncMinute:00`; if no candidate in the window matches it
stores `fromUtc + 24*3600`. -/
theorem C3_first_match_from_next_minute (u : Nat) :
    (∃ i, i < 48 * 60
      ∧ (scheduleNextNightlySync initGlobals u).nextNtpSyncEpoch = (u - u % 60 + 60) + 60 * i
      ∧ u < (u - u % 60 + 60)
      ∧ syncMatch ((u - u % 60 + 60) + 60 * i) = true
      ∧ ∀ j, j < i → syncMatch ((u - u % 60 + 60) + 60 * j) = false)
    ∨ ((scheduleNextNightlySync initGlobals u).nextNtpSyncEpoch = u + 24 * 3600
      ∧ ∀ i, i < 48 * 60 → syncMatch ((u - u % 60 + 60) + 60 * i) = false) := by
  have hs : u < u - u % 60 + 60 := by
    have h1 := Nat.mod_le u 60
    have h2 := Nat.mod_lt u (show 0 < 60 by omega)
    omega
  have hproj : (scheduleNextNightlySync initGlobals u).nextNtpSyncEpoch = scheduleNext u := rfl
  rw [hproj]
  unfold scheduleNext
  rcases scanSyncAux_spec (48 * 60) (u - u % 60 + 60) with ⟨hall, hnone⟩ | ⟨i, hi, hm, heq, hmin⟩
  · simp only [hnone]
    exact Or.inr ⟨trivial, hall⟩
  · simp only [heq]
    exact Or.inl ⟨i, hi, rfl, hs, hm, hmin⟩

/-- C8: the resync scheduler is idempotent (storing twice from the same
`fromUtc` equals storing once), the stored instant is strictly greater
than `fromUtc`, and in the scan-exhaustion fallback it is
`fromUtc + 24*3600`. -/
theorem C8_scheduleNext_idempotent_strictly_future :
    ∀ (g : Globals) (u : Nat),
      scheduleNextNightlySync (scheduleNextNightlySync g u) u = scheduleNextNightlySync g u
      ∧ u < (scheduleNextNightlySync g u).nextNtpSyncEpoch
      ∧ ((∀ i, i < 48 * 60 → syncMatch ((u - u % 60 + 60) + 60 * i) = false) →
          (scheduleNextNightlySync g u).nextNtpSyncEpoch = u + 24 * 3600) := by
  intro g u
  refine ⟨rfl, scheduleNext_gt u, ?_⟩
  intro hall
  show scheduleNext u = u + 24 * 3600
  unfold scheduleNext
  rcases scanSyncAux_spec (48 * 60) (u - u % 60 + 60) with ⟨_, hnone⟩ | ⟨i, hi, hm, _, _⟩
  · simp only [hnone]
  · rw [hall i hi] at hm
    exact absurd hm (by simp)

/-! ## The DST claim -/

theorem isDstEurope_fields (u y m d hr : Nat)
    (hcy : civilYear u = y) (hcm : civilMonth u = m) (hcd : civilDay u = d)
    (hch : civilHour u = hr) :
    isDstEurope u
      = if m < 3 ∨ m > 10 then false
        else if m > 3 ∧ m < 10 then true
        else if m = 3 then
          if d > lastSunday y 3 then true
          else if d < lastSunday y 3 then false
          else decide (hr ≥ 1)
        else
          if d < lastSunday y 10 then true
          else if d > lastSunday y 10 then false
          else decide (hr < 1) := by
  simp only [isDstEurope, hcy, hcm, hcd, hch]

theorem isDst_transitions (y : Nat) (hy : 1970 ≤ y) :
    isDstEurope (dstStart y - 1) = false ∧ isDstEurope (dstStart y) = true
    ∧ isDstEurope (dstEnd y - 1) = true ∧ isDstEurope (dstEnd y) = false := by
  obtain ⟨hls3a, hls3b⟩ := lastSunday_bounds y 3
  obtain ⟨hls10a, hls10b⟩ := lastSunday_bounds y 10
  have hlen3 : monthLen (isLeap y) 3 = 31 := by cases isLeap y <;> rfl
  have hlen10 : monthLen (isLeap y) 10 = 31 := by cases isLeap y <;> rfl
  have hs : dstStart y
      = (daysToYear y + monthDays (isLeap y) 3 + (lastSunday y 3 - 1)) * 86400 + 3600 := rfl
  have he : dstEnd y
      = (daysToYear y + monthDays (isLeap y) 10 + (lastSunday y 10 - 1)) * 86400 + 3600 := rfl
  have hs1 : dstStart y - 1
      = (daysToYear y + monthDays (isLeap y) 3 + (lastSunday y 3 - 1)) * 86400 + 3599 := by
    omega
  have he1 : dstEnd y - 1
      = (daysToYear y + monthDays (isLeap y) 10 + (lastSunday y 10 - 1)) * 86400 + 3599 := by
    omega
  obtain ⟨a1, a2, a3, a4⟩ := civil_build y 3 (lastSunday y 3 - 1) 3599 hy
    (by omega) (by omega) (by omega) (by omega)
  obtain ⟨b1, b2, b3, b4⟩ := civil_build y 3 (lastSunday y 3 - 1) 3600 hy
    (by omega) (by omega) (by omega) (by omega)
  obtain ⟨c1, c2, c3, c4⟩ := civil_build y 10 (lastSunday y 10 - 1) 3599 hy
    (by omega) (by omega) (by omega) (by omega)
  obtain ⟨d1, d2, d3, d4⟩ := civil_build y 10 (lastSunday y 10 - 1) 3600 hy
    (by omega) (by omega) (by omega) (by omega)
  refine ⟨?_, ?_, ?_, ?_⟩
  · rw [hs1, isDstEurope_fields _ y 3 (lastSunday y 3 - 1 + 1) (3599 / 3600) a1 a2 a3 a4]
    rw [if_neg (by omega), if_neg (by omega), if_pos rfl,
      if_neg (by omega), if_neg (by omega)]
    decide
  · rw [hs, isDstEurope_fields _ y 3 (lastSunday y 3 - 1 + 1) (3600 / 3600) b1 b2 b3 b4]
    rw [if_neg (by omega), if_neg (by omega), if_pos rfl,
      if_neg (by omega), if_neg (by omega)]
    decide
  · rw [he1, isDstEurope_fields _ y 10 (lastSunday y 10 - 1 + 1) (3599 / 3600) c1 c2 c3 c4]
    rw [if_neg (by omega), if_neg (by omega), if_neg (by omega),
      if_neg (by omega), if_neg (by omega)]
    decide
  · rw [he, isDstEurope_fields _ y 10 (lastSunday y 10 - 1 + 1) (3600 / 3600) d1 d2 d3 d4]
    rw [if_neg (by omega), if_neg (by omega), if_neg (by omega),
      if_neg (by omega), if_neg (by omega)]
    decide

/-- C2: `isDstEurope u` holds iff `u` lies in the half-open interval from
01:00 UTC on the last Sunday of March (inclusive) to 01:00 UTC on the
last Sunday of October (exclusive) of `u`'s year; it is always true for
April through September, always false for November through February, and
flips exactly between the 00:59:59 and 01:00:00 seconds of both boundary
Sundays. -/
theorem C2_isDstEurope_euRule :
    ∀ u : Nat,
      (isDstEurope u = true ↔ isDstSpec u)
      ∧ (4 ≤ civilMonth u ∧ civilMonth u ≤ 9 → isDstEurope u = true)
      ∧ ((civilMonth u ≤ 2 ∨ 11 ≤ civilMonth u) → isDstEurope u = false)
      ∧ (∀ y, 1970 ≤ y →
          isDstEurope (dstStart y - 1) = false ∧ isDstEurope (dstStart y) = true
          ∧ isDstEurope (dstEnd y - 1) = true ∧ isDstEurope (dstEnd y) = false) := by
  intro u
  refine ⟨isDst_iff_interval u, ?_, ?_, fun y hy => isDst_transitions y hy⟩
  · rintro ⟨h4, h9⟩
    simp only [isDstEurope]
    split_ifs <;> first | rfl | (exfalso; omega)
  · intro h
    simp only [isDstEurope]
    split_ifs <;> first | rfl | (exfalso; omega)

set_option maxRecDepth 1000000 in
set_option maxHeartbeats 1000000 in
/-- C2 witness: the rule evaluated concretely — a July 2024 instant is
DST, a December 2024 instant is not, and the four 2024 boundary seconds
flip as stated. -/
theorem C2_isDstEurope_euRule_witness :
    (isDstEurope 1729989000 = true ↔ isDstSpec 1729989000)
    ∧ isDstEurope 1721000000 = true
    ∧ isDstEurope 1735000000 = false
    ∧ (isDstEurope (dstStart 2024 - 1) = false ∧ isDstEurope (dstStart 2024) = true
       ∧ isDstEurope (dstEnd 2024 - 1) = true ∧ isDstEurope (dstEnd 2024) = false) :=
  ⟨(C2_isDstEurope_euRule 1729989000).1,
   (C2_isDstEurope_euRule 1721000000).2.1 ⟨by decide, by decide⟩,
   (C2_isDstEurope_euRule 1735000000).2.2.1 (Or.inr (by decide)),
   (C2_isDstEurope_euRule 0).2.2.2 2024 (by decide)⟩

/-! ## State-machine claims -/

/-- C4: if `shouldStartNightlySync` reports a due sync at `t`, it has (as
a side effect) stored `scheduleNext t` as the new schedule, so an
immediately following call at the same instant — or at any instant below
the newly stored schedule — reports false. -/
theorem C4_no_double_trigger :
    ∀ (g : Globals) (t : Nat),
      (shouldStartNightlySync g t).1 = true →
      (shouldStartNightlySync g t).2.nextNtpSyncEpoch = scheduleNext t
      ∧ ∀ t2, t2 = t ∨ t2 < scheduleNext t →
          (shouldStartNightlySync (shouldStartNightlySync g t).2 t2).1 = false := by
  intro g t h
  have hgt := scheduleNext_gt t
  by_cases h0 : g.nextNtpSyncEpoch = 0
  · exfalso
    simp [shouldStartNightlySync, h0] at h
  · by_cases h1 : t < g.nextNtpSyncEpoch
    · exfalso
      simp [shouldStartNightlySync, h0, h1] at h
    · constructor
      · simp [shouldStartNightlySync, h0, h1, scheduleNextNightlySync]
      · intro t2 ht2
        have hne : scheduleNext t ≠ 0 := by omega
        have hlt : t2 < scheduleNext t := by
          rcases ht2 with rfl | hl
          · exact hgt
          · exact hl
        simp [shouldStartNightlySync, scheduleNextNightlySync, h0, h1, hne, hlt]

/-- C4 witness: a due sync at epoch 7440 (schedule 50 already passed) is
reported once; the immediate second call at the same instant is false. -/
theorem C4_no_double_trigger_witness :
    (shouldStartNightlySync
      (shouldStartNightlySync { initGlobals with nextNtpSyncEpoch := 50 } 7440).2 7440).1
      = false :=
  (C4_no_double_trigger { initGlobals with nextNtpSyncEpoch := 50 } 7440 (by decide)).2
    7440 (Or.inl rfl)

/-- C5: in the waiting-for-time state with the NTP wait not timed out and
a valid first poll, an absorb reading below the sanity floor makes
`syncRtcFromSystemTime` return false with all globals (in particular the
clock reference and the schedule) unchanged and the loop fall back to
`STATE_WIFI_CONFIG`; a reading at or above the floor replaces the
reference pair, recomputes the schedule, and moves on to showing the
clock. -/
theorem C5_sanity_floor_reject_or_absorb (g : Globals) (e : LoopEnv)
    (hst : g.myState = ClockStateT.STATE_WAIT_FOR_TIME)
    (htimeout : (g.ntpSyncInProgress
        && decide (usub32 e.waitMs g.ntpSyncStartMs > ntpWaitTimeoutMs)) = false)
    (hvalid : isTimeValid e.reading1 = true) :
    (e.reading2 < ntpSanityFloor →
      syncRtcFromSystemTime g e.reading2 e.syncMs = (false, g)
      ∧ loopStep g e
          = { g with ntpSyncInProgress := false, myState := ClockStateT.STATE_WIFI_CONFIG })
    ∧ (ntpSanityFloor ≤ e.reading2 →
      (syncRtcFromSystemTime g e.reading2 e.syncMs).1 = true
      ∧ (syncRtcFromSystemTime g e.reading2 e.syncMs).2.rtcBaseTime = e.reading2
      ∧ (syncRtcFromSystemTime g e.reading2 e.syncMs).2.rtcBaseMillis = e.syncMs
      ∧ (syncRtcFromSystemTime g e.reading2 e.syncMs).2.nextNtpSyncEpoch
          = scheduleNext e.reading2
      ∧ loopStep g e
          = superviseWiFi
              { (syncRtcFromSystemTime g e.reading2 e.syncMs).2 with
                  ntpSyncInProgress := false
                  myState := ClockStateT.STATE_SHOW_CLOCK }
              e.nowMs e.connected) := by
  constructor
  · intro hr
    have hsync : syncRtcFromSystemTime g e.reading2 e.syncMs = (false, g) := by
      simp [syncRtcFromSystemTime, hr]
    refine ⟨hsync, ?_⟩
    simp only [loopStep, hst, htimeout, hvalid, hsync]
    simp
  · intro hr
    have hnr : ¬ (e.reading2 < ntpSanityFloor) := by omega
    have hsync : syncRtcFromSystemTime g e.reading2 e.syncMs
        = (true, scheduleNextNightlySync
            { g with rtcBaseTime := e.reading2, rtcBaseMillis := e.syncMs } e.reading2) := by
      simp [syncRtcFromSystemTime, hnr]
    rw [hsync]
    refine ⟨rfl, rfl, rfl, rfl, ?_⟩
    simp only [loopStep, hst, htimeout, hvalid, hsync]
    simp

/-- C5 witness: a concrete rejected absorb (reading 0) in the waiting
state falls back to `STATE_WIFI_CONFIG` without touching the reference,
and a concrete accepted absorb (reading = the floor) stores it. -/
theorem C5_sanity_floor_witness :
    (syncRtcFromSystemTime
        { initGlobals with myState := ClockStateT.STATE_WAIT_FOR_TIME }
        0 123 = (false, { initGlobals with myState := ClockStateT.STATE_WAIT_FOR_TIME })
      ∧ loopStep { initGlobals with myState := ClockStateT.STATE_WAIT_FOR_TIME }
          ⟨0, 0, 1451606400, 0, 123, 0, 0, 0, 0, true⟩
          = { { initGlobals with myState := ClockStateT.STATE_WAIT_FOR_TIME } with
                ntpSyncInProgress := false, myState := ClockStateT.STATE_WIFI_CONFIG })
    ∧ (syncRtcFromSystemTime
        { initGlobals with myState := ClockStateT.STATE_WAIT_FOR_TIME }
        1451606400 123).2.rtcBaseTime = 1451606400 :=
  ⟨(C5_sanity_floor_reject_or_absorb
      { initGlobals with myState := ClockStateT.STATE_WAIT_FOR_TIME }
      ⟨0, 0, 1451606400, 0, 123, 0, 0, 0, 0, true⟩
      rfl (by decide) (by decide)).1 (by decide),
   ((C5_sanity_floor_reject_or_absorb
      { initGlobals with myState := ClockStateT.STATE_WAIT_FOR_TIME }
      ⟨0, 0, 1451606400, 1451606400, 123, 0, 0, 0, 0, true⟩
      rfl (by decide) (by decide)).2 (by decide)).2.1⟩

/-- C6 (code evaluated at the failing input): starting from a fresh
displaying state, with WiFi observed absent at ticks 0, 59999 and 60001,
the supervisor does NOT force a transition to `STATE_WIFI_CONFIG` at the
tick-60001 call: the tick-0 observation was lost because 0 doubles as the
"not absent" sentinel of `wifiLostSinceMs`, absent-since was re-recorded
at 59999, and the measured absence is only 2 ms. -/
theorem C6_supervisor_misses_reset_at_60001 :
    (superviseWiFi (superviseWiFi (superviseWiFi
        { initGlobals with myState := ClockStateT.STATE_SHOW_CLOCK } 0 false)
        59999 false) 60001 false).myState = ClockStateT.STATE_SHOW_CLOCK
    ∧ (superviseWiFi (superviseWiFi (superviseWiFi
        { initGlobals with myState := ClockStateT.STATE_SHOW_CLOCK } 0 false)
        59999 false) 60001 false).wifiLostSinceMs = 59999 := by
  decide

/-- C7: with reference (1700000000 s, 1000 ms) and current tick 61000 the
internal clock reads 1700000060, and in general the elapsed-millisecond
delta is the wraparound-safe unsigned 32-bit difference, so the reading
is also correct when the tick counter wrapped past the reference tick. -/
theorem C7_getCurrentRtcTime_wraparound :
    (∀ (g : Globals) (sys : Nat), g.rtcBaseTime = 1700000000 → g.rtcBaseMillis = 1000 →
        getCurrentRtcTime g 61000 sys = 1700000060)
    ∧ (∀ (g : Globals) (sys e : Nat), g.rtcBaseTime ≠ 0 →
        g.rtcBaseMillis < 4294967296 → e < 4294967296 →
        getCurrentRtcTime g ((g.rtcBaseMillis + e) % 4294967296) sys
          = g.rtcBaseTime + e / 1000) := by
  constructor
  · intro g sys h1 h2
    have hne : (g.rtcBaseTime == 0) = false := by simp [h1]
    have hd : usub32 61000 1000 = 60000 := by decide
    simp [getCurrentRtcTime, hne, h1, h2, hd]
  · intro g sys e h1 h2 h3
    have hne : (g.rtcBaseTime == 0) = false := by simp [h1]
    have hd : usub32 ((g.rtcBaseMillis + e) % 4294967296) g.rtcBaseMillis = e := by
      unfold usub32
      omega
    simp [getCurrentRtcTime, hne, hd]

/-- C7 witness: the concrete reading, plus a wrapped-counter reading:
reference tick 4294966296, 2000 ms elapsed, current tick 1704 (the
counter wrapped), reading advances by 2 s. -/
theorem C7_getCurrentRtcTime_witness :
    getCurrentRtcTime
      { initGlobals with rtcBaseTime := 1700000000, rtcBaseMillis := 1000 } 61000 0
      = 1700000060
    ∧ getCurrentRtcTime
      { initGlobals with rtcBaseTime := 1700000000, rtcBaseMillis := 4294966296 }
      ((4294966296 + 2000) % 4294967296) 0
      = 1700000002 :=
  ⟨C7_getCurrentRtcTime_wraparound.1
      { initGlobals with rtcBaseTime := 1700000000, rtcBaseMillis := 1000 } 0 rfl rfl,
   by
    have h := C7_getCurrentRtcTime_wraparound.2
      { initGlobals with rtcBaseTime := 1700000000, rtcBaseMillis := 4294966296 }
      0 2000 (by decide) (by decide) (by decide)
    simpa using h⟩

/-- C9: each of the three re-entries into `STATE_WIFI_CONFIG` — the
supervisor-forced reset, the NTP wait timeout, and the rejected time
reading — leaves `rtcBaseTime` and `rtcBaseMillis` unchanged (the
supervisor never touches them at all), so `getCurrentRtcTime` keeps
serving time from the stale reference. -/
theorem C9_reentry_preserves_reference :
    ∀ (g : Globals) (e : LoopEnv),
      (∀ (nowMs : Nat) (connected : Bool),
        (superviseWiFi g nowMs connected).rtcBaseTime = g.rtcBaseTime
        ∧ (superviseWiFi g nowMs connected).rtcBaseMillis = g.rtcBaseMillis
        ∧ ∀ ms sys, getCurrentRtcTime (superviseWiFi g nowMs connected) ms sys
            = getCurrentRtcTime g ms sys)
      ∧ (g.myState = ClockStateT.STATE_WAIT_FOR_TIME →
          (g.ntpSyncInProgress
            && decide (usub32 e.waitMs g.ntpSyncStartMs > ntpWaitTimeoutMs)) = true →
          loopStep g e
            = { g with ntpSyncInProgress := false, myState := ClockStateT.STATE_WIFI_CONFIG })
      ∧ (g.myState = ClockStateT.STATE_WAIT_FOR_TIME →
          (g.ntpSyncInProgress
            && decide (usub32 e.waitMs g.ntpSyncStartMs > ntpWaitTimeoutMs)) = false →
          isTimeValid e.reading1 = true → e.reading2 < ntpSanityFloor →
          loopStep g e
            = { g with ntpSyncInProgress := false, myState := ClockStateT.STATE_WIFI_CONFIG }) := by
  intro g e
  refine ⟨?_, ?_, ?_⟩
  · intro nowMs connected
    unfold superviseWiFi
    split_ifs <;> simp [apply_ite, getCurrentRtcTime] <;>
      (intro ms sys; split_ifs <;> omega)
  · intro hst htimeout
    simp only [loopStep, hst, htimeout]
    simp
  · intro hst htimeout hvalid hr
    have hsync : syncRtcFromSystemTime g e.reading2 e.syncMs = (false, g) := by
      simp [syncRtcFromSystemTime, hr]
    simp only [loopStep, hst, htimeout, hvalid, hsync]
    simp

/-- C9 witness: a concrete NTP-wait timeout from the waiting state lands
in `STATE_WIFI_CONFIG` with the clock reference untouched. -/
theorem C9_reentry_witness :
    loopStep
      { initGlobals with
          myState := ClockStateT.STATE_WAIT_FOR_TIME
          rtcBaseTime := 1700000000
          rtcBaseMillis := 42
          ntpSyncInProgress := true }
      ⟨0, 30000, 0, 0, 0, 0, 0, 0, 0, true⟩
      = { { initGlobals with
              myState := ClockStateT.STATE_WAIT_FOR_TIME
              rtcBaseTime := 1700000000
              rtcBaseMillis := 42
              ntpSyncInProgress := true } with
            ntpSyncInProgress := false, myState := ClockStateT.STATE_WIFI_CONFIG } :=
  ((C9_reentry_preserves_reference
      { initGlobals with
          myState := ClockStateT.STATE_WAIT_FOR_TIME
          rtcBaseTime := 1700000000
          rtcBaseMillis := 42
          ntpSyncInProgress := true }
      ⟨0, 30000, 0, 0, 0, 0, 0, 0, 0, true⟩).2.1) rfl (by decide)

/-- C10: `getCurrentRtcTime` returns the platform system time when no
reading was ever absorbed (`rtcBaseTime = 0`), and otherwise the
reference time plus the wraparound-safe elapsed milliseconds divided by
1000. -/
theorem C10_getCurrentRtcTime_unset_fallback :
    ∀ (g : Globals) (nowMillis sys : Nat),
      (g.rtcBaseTime = 0 → getCurrentRtcTime g nowMillis sys = sys)
      ∧ (g.rtcBaseTime ≠ 0 →
          getCurrentRtcTime g nowMillis sys
            = g.rtcBaseTime + usub32 nowMillis g.rtcBaseMillis / 1000) := by
  intro g nowMillis sys
  constructor
  · intro h
    simp [getCurrentRtcTime, h]
  · intro h
    have hne : (g.rtcBaseTime == 0) = false := by simp [h]
    simp [getCurrentRtcTime, hne]

/-- C10 witness: the fresh boot state reads the system time directly; a
set reference is used arithmetically. -/
theorem C10_getCurrentRtcTime_witness :
    getCurrentRtcTime initGlobals 5 7 = 7
    ∧ getCurrentRtcTime { initGlobals with rtcBaseTime := 9 } 2500 7
        = 9 + usub32 2500 0 / 1000 :=
  ⟨(C10_getCurrentRtcTime_unset_fallback initGlobals 5 7).1 rfl,
   (C10_getCurrentRtcTime_unset_fallback
      { initGlobals with rtcBaseTime := 9 } 2500 7).2 (by decide)⟩

end BerlinUhr
